import Mathlib

/-!
Verification of the multi-session streaming chat manager
(local-chat-companion): a shallow embedding of the session registry
(`getChatState`/`updateChatState` in `src/hooks/useChatManager.ts`), the
manager operations (`sendUserMessage`, `stopGeneration`,
`regenerateLastResponse`, `editAndResend`, `importChat`), the completion
client (`sendMessage` in `src/lib/api.ts`) and the SSE stream decoder
(`handleStreamingResponse`), together with theorems settling the frozen
claims about them.

Conventions of the embedding:
* TypeScript objects become structures; `Map` and the JS object used as a
  map become association lists with JS `Map.set`/`Map.get` semantics.
* Asynchronous network effects are abstracted by passing the resolution of
  the underlying promise (`Except` value / list of stream chunks) as an
  explicit argument; everything between suspension points is pure state
  passing, matching the single-threaded cooperative model of the code.
* `JSON.parse` is modelled by an executable parser for the JSON subset the
  program exchanges (objects, arrays, strings, integers, literals).
-/

namespace ChatCompanion

/-- Message role, from `types/chat.ts` (`'user' | 'assistant' | 'system'`). -/
inductive Role where
  | user
  | assistant
  | system
deriving DecidableEq, Repr

/-- `Message` from `types/chat.ts`. `content` is the plain-text variant used
by the local manager (`useChatManager.ts`); timestamps are `Date.now()`
values modelled as `Nat`. -/
structure Message where
  id : String
  role : Role
  content : String
  timestamp : Nat
deriving DecidableEq, Repr

/-- `Chat` from `types/chat.ts`. -/
structure Chat where
  id : String
  title : String
  messages : List Message
  createdAt : Nat
  updatedAt : Nat
  pinned : Bool
  archived : Bool
deriving DecidableEq, Repr

/-- `ChatState` from `types/chat.ts`. The `abortController` field is
modelled by presence (`Option Unit`): the registry entries written by
`useChatManager.ts` never set it, so it only ever holds `none` there. -/
structure ChatState where
  isLoading : Bool
  streamingContent : String
  abortController : Option Unit
deriving DecidableEq, Repr

/-- The default idle state `{ isLoading: false, streamingContent: '',
abortController: null }` used by `getChatState` and `updateChatState`. -/
def defaultChatState : ChatState :=
  { isLoading := false, streamingContent := "", abortController := none }

/-- A partial update `Partial<ChatState>`: a field is `some v` when the
update object carries it and `none` when it is absent (spread keeps the
current value). -/
structure ChatStateUpdate where
  isLoading : Option Bool := none
  streamingContent : Option String := none
  abortController : Option (Option Unit) := none

/-- The JS spread `{ ...current, ...update }`. -/
def applyUpdate (current : ChatState) (u : ChatStateUpdate) : ChatState :=
  { isLoading := u.isLoading.getD current.isLoading
    streamingContent := u.streamingContent.getD current.streamingContent
    abortController := u.abortController.getD current.abortController }

/-- The session registry `Map<string, ChatState>`, as an association list
(JS `Map` preserves insertion order; `set` on an existing key replaces in
place). -/
abbrev Registry := List (String × ChatState)

/-- `Map.get`. -/
def regGet : Registry → String → Option ChatState
  | [], _ => none
  | (k, v) :: rest, key => if k = key then some v else regGet rest key

/-- `Map.set`: replaces the value at an existing key in place, otherwise
appends the new entry. -/
def regSet : Registry → String → ChatState → Registry
  | [], key, v => [(key, v)]
  | (k, w) :: rest, key, v =>
      if k = key then (key, v) :: rest else (k, w) :: regSet rest key v

/-- `getChatState` (useChatManager.ts lines 12-14): the stored state or the
default idle state when absent. -/
def getChatState (reg : Registry) (chatId : String) : ChatState :=
  (regGet reg chatId).getD defaultChatState

/-- `updateChatState` (useChatManager.ts lines 16-23): merge the partial
update into the current (or default) state and store it. -/
def updateChatState (reg : Registry) (chatId : String) (u : ChatStateUpdate) :
    Registry :=
  regSet reg chatId (applyUpdate ((regGet reg chatId).getD defaultChatState) u)

lemma regGet_regSet_ne (reg : Registry) (a b : String) (v : ChatState)
    (hab : a ≠ b) : regGet (regSet reg a v) b = regGet reg b := by
  induction reg with
  | nil => simp [regSet, regGet, hab]
  | cons hd tl ih =>
      obtain ⟨k, w⟩ := hd
      by_cases hk : k = a
      · subst hk
        simp [regSet, regGet, hab]
      · simp [regSet, regGet, hk, ih]

lemma regGet_regSet_self (reg : Registry) (a : String) (v : ChatState) :
    regGet (regSet reg a v) a = some v := by
  induction reg with
  | nil => simp [regSet, regGet]
  | cons hd tl ih =>
      obtain ⟨k, w⟩ := hd
      by_cases hk : k = a
      · subst hk
        simp [regSet, regGet]
      · simp [regSet, regGet, hk, ih]

lemma getChatState_updateChatState_ne (reg : Registry) (a b : String)
    (u : ChatStateUpdate) (hab : a ≠ b) :
    getChatState (updateChatState reg a u) b = getChatState reg b := by
  simp [getChatState, updateChatState, regGet_regSet_ne _ _ _ _ hab]

lemma getChatState_updateChatState_self (reg : Registry) (a : String)
    (u : ChatStateUpdate) :
    getChatState (updateChatState reg a u) a =
      applyUpdate (getChatState reg a) u := by
  simp [getChatState, updateChatState, regGet_regSet_self]

/-- C1: a session-registry update issued for conversation `a` leaves the
runtime state read through any other conversation identifier `b`
unchanged — `getChatState b` returns the same value before and after every
`updateChatState` keyed by `a`, so two simultaneously in-flight sends on
distinct conversations never observe each other's loading flag or
streaming text. -/
theorem registry_update_frame (reg : Registry) (a b : String)
    (u : ChatStateUpdate) (hab : a ≠ b) :
    getChatState (updateChatState reg a u) b = getChatState reg b :=
  getChatState_updateChatState_ne reg a b u hab

/-- A concrete registry used to witness C1: conversation `"B"` is mid-send
with accumulated streaming text `"b"`. -/
def witnessRegistry : Registry :=
  [("B", { isLoading := true, streamingContent := "b", abortController := none })]

/-- A concrete registry update as issued at the start of a send. -/
def witnessUpdate : ChatStateUpdate :=
  { isLoading := some true, streamingContent := some "He" }

/-- Witness for C1 at a concrete registry: an update keyed `"A"` (setting
the loading flag and streaming text, as a send on `"A"` does) leaves the
state read through `"B"` unchanged. -/
theorem registry_update_frame_witness :
    ("A" : String) ≠ "B" ∧
      getChatState (updateChatState witnessRegistry "A" witnessUpdate) "B" =
        getChatState witnessRegistry "B" :=
  ⟨by decide, registry_update_frame witnessRegistry "A" "B" witnessUpdate (by decide)⟩

/-- The side map `abortControllersRef.current : Map<string, AbortController>`
modelled by the set of conversation identifiers holding a live controller
(insertion order preserved; the controller object itself carries no state
relevant to the embedding — its abort signal is delivered to the in-flight
request, which the manager operations receive as an explicit outcome). -/
abbrev Controllers := List String

/-- `Map.set` on the controller map: a fresh controller replaces an
existing one in place, otherwise the entry is appended. -/
def ctrlSet (cs : Controllers) (chatId : String) : Controllers :=
  if chatId ∈ cs then cs else cs ++ [chatId]

/-- `Map.delete` on the controller map. -/
def ctrlDelete (cs : Controllers) (chatId : String) : Controllers :=
  cs.filter (fun k => k ≠ chatId)

/-- `Map.get(chatId)` truthiness: whether a controller is present. -/
def hasController (cs : Controllers) (chatId : String) : Bool :=
  chatId ∈ cs

/-- The state owned by `useChatManager`: the durable chat list (`chats`,
kept in sync with `saveChats` by `persistChats`), the session registry
(`chatStates`) and the cancellation-handle map (`abortControllersRef`). -/
structure ManagerState where
  chats : List Chat
  chatStates : Registry
  controllers : Controllers
deriving DecidableEq, Repr

/-- `stopGeneration` (useChatManager.ts lines 173-180): abort and delete
the controller if present, then reset the session state to idle. The
`controller.abort()` call signals the in-flight request (delivered to the
corresponding send as an error outcome) and does not itself touch manager
state. -/
def stopGeneration (st : ManagerState) (chatId : String) : ManagerState :=
  let controllers :=
    if hasController st.controllers chatId then ctrlDelete st.controllers chatId
    else st.controllers
  { st with
    controllers := controllers
    chatStates := updateChatState st.chatStates chatId
      { isLoading := some false, streamingContent := some "" } }

lemma hasController_ctrlDelete (cs : Controllers) (chatId : String) :
    hasController (ctrlDelete cs chatId) chatId = false := by
  simp [hasController, ctrlDelete]

lemma regSet_regSet_self (reg : Registry) (a : String) (v w : ChatState) :
    regSet (regSet reg a v) a w = regSet reg a w := by
  induction reg with
  | nil => simp [regSet]
  | cons hd tl ih =>
      obtain ⟨k, x⟩ := hd
      by_cases hk : k = a
      · subst hk
        simp [regSet]
      · simp [regSet, hk, ih]

lemma getChatState_stopGeneration (st : ManagerState) (chatId : String) :
    getChatState (stopGeneration st chatId).chatStates chatId =
      { isLoading := false, streamingContent := "",
        abortController := (getChatState st.chatStates chatId).abortController } := by
  have h : (stopGeneration st chatId).chatStates =
      updateChatState st.chatStates chatId
        { isLoading := some false, streamingContent := some "" } := rfl
  rw [h, getChatState_updateChatState_self]
  rfl

lemma hasController_stopGeneration (st : ManagerState) (chatId : String) :
    hasController (stopGeneration st chatId).controllers chatId = false := by
  have h : (stopGeneration st chatId).controllers =
      if hasController st.controllers chatId then ctrlDelete st.controllers chatId
      else st.controllers := rfl
  rw [h]
  by_cases hc : hasController st.controllers chatId
  · simp [hc, hasController_ctrlDelete]
  · simp only [hc, if_neg]
    simpa using hc

lemma updateChatState_idle_idem (reg : Registry) (a : String) :
    updateChatState (updateChatState reg a
      { isLoading := some false, streamingContent := some "" }) a
      { isLoading := some false, streamingContent := some "" } =
    updateChatState reg a { isLoading := some false, streamingContent := some "" } := by
  simp only [updateChatState, regGet_regSet_self, Option.getD_some]
  rw [regSet_regSet_self]
  rfl

lemma stopGeneration_stopGeneration (st : ManagerState) (chatId : String) :
    stopGeneration (stopGeneration st chatId) chatId = stopGeneration st chatId := by
  have hreg : (stopGeneration (stopGeneration st chatId) chatId).chatStates =
      (stopGeneration st chatId).chatStates :=
    updateChatState_idle_idem st.chatStates chatId
  have hcs : (stopGeneration (stopGeneration st chatId) chatId).controllers =
      (stopGeneration st chatId).controllers := by
    have h : (stopGeneration (stopGeneration st chatId) chatId).controllers =
        if hasController (stopGeneration st chatId).controllers chatId then
          ctrlDelete (stopGeneration st chatId).controllers chatId
        else (stopGeneration st chatId).controllers := rfl
    rw [h, hasController_stopGeneration]
    simp
  have hexp : stopGeneration (stopGeneration st chatId) chatId =
      ⟨(stopGeneration st chatId).chats,
        (stopGeneration (stopGeneration st chatId) chatId).chatStates,
        (stopGeneration (stopGeneration st chatId) chatId).controllers⟩ := rfl
  rw [hexp, hreg, hcs]

/-- C9: `stopGeneration` is idempotent. On a session that is Idle (no
active cancellation handle, idle registry state) it is a no-op on the
observable manager state: the chat list and controller map are unchanged
and `getChatState` returns the same value at every identifier. On any
session — in particular a Streaming one — calling it twice produces
exactly the state of calling it once, and that state is idle: empty
streaming text, loading flag cleared, no cancellation handle. -/
theorem stopGeneration_idempotent (st : ManagerState) (chatId : String) :
    ((hasController st.controllers chatId = false ∧
        getChatState st.chatStates chatId = defaultChatState) →
      (stopGeneration st chatId).chats = st.chats ∧
      (stopGeneration st chatId).controllers = st.controllers ∧
      ∀ x, getChatState (stopGeneration st chatId).chatStates x =
        getChatState st.chatStates x) ∧
    stopGeneration (stopGeneration st chatId) chatId = stopGeneration st chatId ∧
    (getChatState (stopGeneration st chatId).chatStates chatId).isLoading = false ∧
    (getChatState (stopGeneration st chatId).chatStates chatId).streamingContent = "" ∧
    hasController (stopGeneration st chatId).controllers chatId = false := by
  refine ⟨?_, stopGeneration_stopGeneration st chatId, ?_, ?_,
    hasController_stopGeneration st chatId⟩
  · rintro ⟨hc, hidle⟩
    have hctrl : (stopGeneration st chatId).controllers = st.controllers := by
      have h : (stopGeneration st chatId).controllers =
          if hasController st.controllers chatId then
            ctrlDelete st.controllers chatId
          else st.controllers := rfl
      rw [h, hc]
      simp
    refine ⟨rfl, hctrl, ?_⟩
    intro x
    by_cases hx : chatId = x
    · subst hx
      rw [getChatState_stopGeneration, hidle]
      rfl
    · have h : (stopGeneration st chatId).chatStates =
          updateChatState st.chatStates chatId
            { isLoading := some false, streamingContent := some "" } := rfl
      rw [h, getChatState_updateChatState_ne _ _ _ _ hx]
  · rw [getChatState_stopGeneration]
  · rw [getChatState_stopGeneration]

/-- Witness for C9 at a concrete state: the Idle no-op hypothesis is
discharged at an empty manager state for identifier `"A"`. -/
theorem stopGeneration_idempotent_witness :
    (stopGeneration ⟨[], [], []⟩ "A").chats = ([] : List Chat) ∧
      (stopGeneration ⟨[], [], []⟩ "A").controllers = ([] : Controllers) ∧
      ∀ x, getChatState (stopGeneration ⟨[], [], []⟩ "A").chatStates x =
        getChatState ([] : Registry) x :=
  (stopGeneration_idempotent ⟨[], [], []⟩ "A").1 ⟨by decide, by decide⟩

/-- JSON values as produced by `JSON.parse`, restricted to the subset the
program exchanges: objects, arrays, strings, integers and the literals
`true`/`false`/`null`. -/
inductive Json where
  | null
  | bool (b : Bool)
  | num (n : Int)
  | str (s : String)
  | arr (elems : List Json)
  | obj (fields : List (String × Json))

/-- First field with the given key in a JSON object (later duplicate keys
in a JS object literal would overwrite earlier ones at parse time; the
payloads modelled here carry no duplicates). -/
def jsonLookup : List (String × Json) → String → Option Json
  | [], _ => none
  | (k, v) :: rest, key => if k = key then some v else jsonLookup rest key

/-- JS truthiness of a JSON value (`undefined` is represented by `none` at
use sites). -/
def jsTruthy : Json → Bool
  | Json.null => false
  | Json.bool b => b
  | Json.num n => n ≠ 0
  | Json.str s => s ≠ ""
  | Json.arr _ => true
  | Json.obj _ => true

/-- JS optional-chaining property access `v?.key`: `undefined`/`null`
bases short-circuit to `undefined`; property access on a non-object yields
`undefined` for the (non-numeric, non-method) keys used here. -/
def jsGetOpt : Option Json → String → Option Json
  | none, _ => none
  | some Json.null, _ => none
  | some (Json.obj fields), key => jsonLookup fields key
  | some _, _ => none

/-- JS optional-chaining index access `v?.[i]`. -/
def jsIndexOpt : Option Json → Nat → Option Json
  | none, _ => none
  | some Json.null, _ => none
  | some (Json.arr elems), i => elems.get? i
  | some (Json.obj fields), i => jsonLookup fields (toString i)
  | some _, _ => none

/-- JS plain index access `v[i]`, which throws a `TypeError` when the base
is `undefined` or `null`. -/
def jsIndexThrow : Option Json → Nat → Except Unit (Option Json)
  | none, _ => Except.error ()
  | some Json.null, _ => Except.error ()
  | some (Json.arr elems), i => Except.ok (elems.get? i)
  | some (Json.obj fields), i => Except.ok (jsonLookup fields (toString i))
  | some _, _ => Except.ok none

/-- JS plain property access `v.key`, which throws a `TypeError` when the
base is `undefined` or `null`. -/
def jsGetThrow : Option Json → String → Except Unit (Option Json)
  | none, _ => Except.error ()
  | some Json.null, _ => Except.error ()
  | some (Json.obj fields), key => Except.ok (jsonLookup fields key)
  | some _, _ => Except.ok none

/-- Whitespace as skipped by a JSON parser. -/
def isJsonWs (c : Char) : Bool :=
  c = ' ' ∨ c = '\n' ∨ c = '\t' ∨ c = '\r'

/-- Drop leading JSON whitespace. -/
def skipWs (cs : List Char) : List Char :=
  cs.dropWhile isJsonWs

/-- Parse the body of a JSON string literal (the opening quote already
consumed), handling the escapes appearing in the payloads modelled here;
unsupported escapes make the parse fail, as over-approximation of
`JSON.parse` failure never hides a success used by a claim. -/
def parseStrBody : List Char → String → Option (String × List Char)
  | [], _ => none
  | '\\' :: e :: rest, acc =>
      if e = '"' then parseStrBody rest (acc.push '"')
      else if e = '\\' then parseStrBody rest (acc.push '\\')
      else if e = '/' then parseStrBody rest (acc.push '/')
      else if e = 'n' then parseStrBody rest (acc.push '\n')
      else if e = 't' then parseStrBody rest (acc.push '\t')
      else if e = 'r' then parseStrBody rest (acc.push '\r')
      else none
  | '"' :: rest, acc => some (acc, rest)
  | c :: rest, acc =>
      if c = '\\' then none else parseStrBody rest (acc.push c)

/-- Accumulate a run of decimal digits. -/
def digitsAux : List Char → Nat → Nat × List Char
  | c :: rest, acc =>
      if c.isDigit then digitsAux rest (acc * 10 + (c.toNat - '0'.toNat))
      else (acc, c :: rest)
  | [], acc => (acc, [])

/-- Parse a non-empty run of decimal digits. -/
def parseDigits (cs : List Char) : Option (Nat × List Char) :=
  match cs with
  | c :: _ => if c.isDigit then some (digitsAux cs 0) else none
  | [] => none

mutual

/-- Parse one JSON value; `fuel` bounds the recursion depth and is chosen
ample for any concrete input (the parser answers `none` if it runs out). -/
def parseVal : Nat → List Char → Option (Json × List Char)
  | 0, _ => none
  | fuel + 1, cs0 =>
      match skipWs cs0 with
      | [] => none
      | c :: rest =>
          if c = '"' then
            (parseStrBody rest "").map (fun p => (Json.str p.1, p.2))
          else if c = '{' then
            match skipWs rest with
            | '}' :: rest2 => some (Json.obj [], rest2)
            | cs2 => parseObjItems fuel cs2 []
          else if c = '[' then
            match skipWs rest with
            | ']' :: rest2 => some (Json.arr [], rest2)
            | cs2 => parseArrItems fuel cs2 []
          else if c = 't' then
            match rest with
            | 'r' :: 'u' :: 'e' :: rest2 => some (Json.bool true, rest2)
            | _ => none
          else if c = 'f' then
            match rest with
            | 'a' :: 'l' :: 's' :: 'e' :: rest2 => some (Json.bool false, rest2)
            | _ => none
          else if c = 'n' then
            match rest with
            | 'u' :: 'l' :: 'l' :: rest2 => some (Json.null, rest2)
            | _ => none
          else if c = '-' then
            match parseDigits rest with
            | some (n, rest2) => some (Json.num (-(n : Int)), rest2)
            | none => none
          else if c.isDigit then
            match parseDigits (c :: rest) with
            | some (n, rest2) => some (Json.num (n : Int), rest2)
            | none => none
          else none

/-- Parse the members of a JSON object after `{` (first member expected). -/
def parseObjItems : Nat → List Char → List (String × Json) →
    Option (Json × List Char)
  | 0, _, _ => none
  | fuel + 1, cs, acc =>
      match skipWs cs with
      | '"' :: rest =>
          match parseStrBody rest "" with
          | none => none
          | some (key, rest2) =>
              match skipWs rest2 with
              | ':' :: rest3 =>
                  match parseVal fuel rest3 with
                  | none => none
                  | some (v, rest4) =>
                      match skipWs rest4 with
                      | ',' :: rest5 => parseObjItems fuel rest5 (acc ++ [(key, v)])
                      | '}' :: rest5 => some (Json.obj (acc ++ [(key, v)]), rest5)
                      | _ => none
              | _ => none
      | _ => none

/-- Parse the elements of a JSON array after `[` (first element expected). -/
def parseArrItems : Nat → List Char → List Json → Option (Json × List Char)
  | 0, _, _ => none
  | fuel + 1, cs, acc =>
      match parseVal fuel cs with
      | none => none
      | some (v, rest) =>
          match skipWs rest with
          | ',' :: rest2 => parseArrItems fuel rest2 (acc ++ [v])
          | ']' :: rest2 => some (Json.arr (acc ++ [v]), rest2)
          | _ => none

end

/-- `JSON.parse(s)`: parse one value and require only whitespace after it;
any other input fails (throws in JS, `none` here). -/
def jsonParse (s : String) : Option Json :=
  match parseVal (2 * s.length + 4) s.data with
  | some (v, rest) => if skipWs rest = [] then some v else none
  | none => none

/-- JS `String.prototype.trim` restricted to the ASCII whitespace relevant
here. -/
def jsTrim (s : String) : String :=
  String.mk (((s.data.dropWhile isJsonWs).reverse.dropWhile isJsonWs).reverse)

/-- JS `line.startsWith('data: ')`. -/
def isDataLine (line : String) : Bool :=
  "data: ".data.isPrefixOf line.data

/-- JS `line.slice(6)`. -/
def sliceFrom6 (line : String) : String :=
  String.mk (line.data.drop 6)

/-- JS `buffer.split('\n')` (keeps empty segments, including a trailing
one). -/
def splitNlAux : List Char → List Char → List String
  | [], acc => [String.mk acc.reverse]
  | c :: rest, acc =>
      if c = '\n' then String.mk acc.reverse :: splitNlAux rest []
      else splitNlAux rest (c :: acc)

/-- JS `s.split('\n')`. -/
def jsSplitNewline (s : String) : List String :=
  splitNlAux s.data []

/-- `parsed.choices?.[0]?.delta?.content || ''` (api.ts line 109). A parse
result of `null` would make the plain `parsed.choices` access throw, but
the throw is swallowed by the same `catch` that skips malformed JSON, so
it is observably the empty (skipped) delta. -/
def streamDelta (parsed : Json) : String :=
  match jsGetOpt (jsGetOpt (jsIndexOpt (jsGetOpt (some parsed) "choices") 0)
      "delta") "content" with
  | some (Json.str s) => s
  | _ => ""

/-- One iteration of the `for (const line of lines)` body of
`handleStreamingResponse` (api.ts lines 102-118) over the accumulated
`fullContent`: returns the new `fullContent` and the value passed to
`onStream`, when any. -/
def processLine (fullContent : String) (line : String) :
    String × Option String :=
  if isDataLine line then
    if jsTrim (sliceFrom6 line) = "[DONE]" then (fullContent, none)
    else
      match jsonParse (jsTrim (sliceFrom6 line)) with
      | none => (fullContent, none)
      | some parsed =>
          if streamDelta parsed = "" then (fullContent, none)
          else (fullContent ++ streamDelta parsed,
            some (fullContent ++ streamDelta parsed))
  else (fullContent, none)

/-- Fold `processLine` over the complete lines of one chunk, collecting
the values delivered to `onStream` in order. -/
def processLines (fullContent : String) : List String → String × List String
  | [] => (fullContent, [])
  | line :: rest =>
      match processLine fullContent line with
      | (fc, none) => processLines fc rest
      | (fc, some e) =>
          match processLines fc rest with
          | (fcFin, es) => (fcFin, e :: es)

/-- The `while (true)` read loop of `handleStreamingResponse` (api.ts
lines 94-119): each chunk is appended to the line buffer, complete lines
are processed, the last (possibly partial) segment becomes the new buffer;
when the stream reports done the loop breaks, discarding any leftover
buffer. -/
def readLoop : List String → String → String → String × List String
  | [], _buffer, fullContent => (fullContent, [])
  | chunk :: rest, buffer, fullContent =>
      let lines := jsSplitNewline (buffer ++ chunk)
      let newBuffer := lines.getLastD ""
      match processLines fullContent lines.dropLast with
      | (fc, es) =>
          match readLoop rest newBuffer fc with
          | (fcFin, es2) => (fcFin, es ++ es2)

/-- `handleStreamingResponse` (api.ts lines 84-125) over the decoded text
chunks of the response body: returns the final `fullContent` and the
sequence of accumulated values delivered to the `onStream` callback. -/
def handleStreamingResponse (chunks : List String) : String × List String :=
  readLoop chunks "" ""

/-- One callback value extends another by a (possibly empty) appended
suffix: the formal reading of "prefix-extension, never shorter, never a
divergent rewrite". -/
def prefixExt (a b : String) : Prop := ∃ t, b = a ++ t

lemma processLine_cases (fc line fc1 : String) (e : Option String)
    (h : processLine fc line = (fc1, e)) :
    (e = none ∧ fc1 = fc) ∨ (e = some fc1 ∧ prefixExt fc fc1) := by
  unfold processLine at h
  by_cases h1 : isDataLine line
  · rw [if_pos h1] at h
    by_cases h2 : jsTrim (sliceFrom6 line) = "[DONE]"
    · rw [if_pos h2] at h
      cases h
      exact Or.inl ⟨rfl, rfl⟩
    · rw [if_neg h2] at h
      cases hp : jsonParse (jsTrim (sliceFrom6 line)) with
      | none =>
          rw [hp] at h
          cases h
          exact Or.inl ⟨rfl, rfl⟩
      | some parsed =>
          rw [hp] at h
          dsimp only at h
          by_cases h3 : streamDelta parsed = ""
          · rw [if_pos h3] at h
            cases h
            exact Or.inl ⟨rfl, rfl⟩
          · rw [if_neg h3] at h
            cases h
            exact Or.inr ⟨rfl, streamDelta parsed, rfl⟩
  · rw [if_neg h1] at h
    cases h
    exact Or.inl ⟨rfl, rfl⟩

lemma processLines_spec (lines : List String) : ∀ fc : String,
    List.Chain prefixExt fc (processLines fc lines).2 ∧
      (processLines fc lines).1 = (processLines fc lines).2.getLastD fc := by
  induction lines with
  | nil =>
      intro fc
      simp [processLines]
  | cons line rest ih =>
      intro fc
      rcases hpl : processLine fc line with ⟨fc1, e⟩
      rcases processLine_cases fc line fc1 e hpl with ⟨he, hfc⟩ | ⟨he, hpre⟩
      · subst he
        subst hfc
        simpa only [processLines, hpl] using ih fc1
      · subst he
        rcases hrec : processLines fc1 rest with ⟨fcFin, es⟩
        have hres : processLines fc (line :: rest) = (fcFin, fc1 :: es) := by
          simp only [processLines, hpl, hrec]
        have hih := ih fc1
        rw [hrec] at hih
        rw [hres]
        exact ⟨List.Chain.cons hpre hih.1, by
          simpa only [List.getLastD_cons] using hih.2⟩

lemma chain_append_getLastD {α : Type} (R : α → α → Prop) :
    ∀ (l1 : List α) (a : α) (l2 : List α), List.Chain R a l1 →
      List.Chain R (l1.getLastD a) l2 → List.Chain R a (l1 ++ l2) := by
  intro l1
  induction l1 with
  | nil =>
      intro a l2 _ h2
      simpa using h2
  | cons b l1 ih =>
      intro a l2 h1 h2
      cases h1 with
      | cons hab h1' =>
          rw [List.getLastD_cons] at h2
          exact List.Chain.cons hab (ih b l2 h1' h2)

lemma getLastD_append_eq {α : Type} (l1 l2 : List α) (d : α) :
    (l1 ++ l2).getLastD d = l2.getLastD (l1.getLastD d) := by
  induction l1 generalizing d with
  | nil => rfl
  | cons a l1 ih =>
      rw [List.cons_append, List.getLastD_cons, List.getLastD_cons, ih]

lemma readLoop_spec (chunks : List String) : ∀ buffer fc : String,
    List.Chain prefixExt fc (readLoop chunks buffer fc).2 ∧
      (readLoop chunks buffer fc).1 = (readLoop chunks buffer fc).2.getLastD fc := by
  induction chunks with
  | nil =>
      intro buffer fc
      simp [readLoop]
  | cons chunk rest ih =>
      intro buffer fc
      rcases hpl : processLines fc (jsSplitNewline (buffer ++ chunk)).dropLast
        with ⟨fc1, es1⟩
      have h1 := processLines_spec (jsSplitNewline (buffer ++ chunk)).dropLast fc
      rw [hpl] at h1
      rcases hrl : readLoop rest ((jsSplitNewline (buffer ++ chunk)).getLastD "") fc1
        with ⟨fc2, es2⟩
      have h2 := ih ((jsSplitNewline (buffer ++ chunk)).getLastD "") fc1
      rw [hrl] at h2
      have hres : readLoop (chunk :: rest) buffer fc = (fc2, es1 ++ es2) := by
        simp only [readLoop, hpl, hrl]
      rw [hres]
      constructor
      · refine chain_append_getLastD prefixExt es1 fc es2 h1.1 ?_
        rw [← h1.2]
        exact h2.1
      · rw [getLastD_append_eq, ← h1.2, ← h2.2]

/-- C5: for a single streaming generation, the sequence of values passed
to the per-delta callback is monotone by prefix — every successive value
extends the previous one by an appended suffix — and the function's return
value equals the last accumulated value delivered to the callback (the
empty string if no delta arrived). -/
theorem streaming_monotone (chunks : List String) :
    List.Chain prefixExt "" (handleStreamingResponse chunks).2 ∧
      (handleStreamingResponse chunks).1 =
        (handleStreamingResponse chunks).2.getLastD "" :=
  readLoop_spec chunks "" ""

/-- The stream of the claim C4 example, exactly as the spec frames it:
`data: {"content":"He"}`, `data: {"llo" ...}`, `data: [DONE]`. -/
def claimedExampleStream : List String :=
  ["data: \x7b\"content\":\"He\"\x7d\n", "data: \x7b\"content\":\"llo\"\x7d\n",
    "data: [DONE]\n"]

/-- The same stream with the frames shaped the way the decoder actually
reads them (`choices[0].delta.content`). -/
def actualDeltaStream : List String :=
  ["data: \x7b\"choices\":[\x7b\"delta\":\x7b\"content\":\"He\"\x7d\x7d]\x7d\n",
    "data: \x7b\"choices\":[\x7b\"delta\":\x7b\"content\":\"llo\"\x7d\x7d]\x7d\n",
    "data: [DONE]\n"]

/-- A stream whose sentinel is followed by a further data frame. -/
def postSentinelStream : List String :=
  ["data: [DONE]\ndata: \x7b\"choices\":[\x7b\"delta\":\x7b\"content\":\"X\"\x7d\x7d]\x7d\n"]

/-- Counterexample to C4: the decoder does not behave as the claim states.
First, a data line appearing after the `[DONE]` sentinel is still parsed
and yielded (the code `continue`s past the sentinel instead of
terminating). Second, on the claim's own example stream the decoder
yields nothing at all — the frames `{"content":"He"}`/`{"content":"llo"}`
carry no `choices[0].delta.content`, so the claimed emissions
`"He"`, `"Hello"` never happen. -/
theorem sentinel_claim_counterexample :
    handleStreamingResponse postSentinelStream = ("X", ["X"]) ∧
      ("X", ["X"]) ≠ ("", ([] : List String)) ∧
      handleStreamingResponse claimedExampleStream = ("", []) ∧
      ("", ([] : List String)) ≠ ("Hello", ["He", "Hello"]) := by
  refine ⟨by decide, by decide, by decide, by decide⟩

/-- C4 as amended: a data line whose payload equals `[DONE]` is skipped
without error and contributes nothing to the accumulated text, but does
not terminate decoding — later data lines are still parsed and yielded;
when the stream itself ends, the text accumulated so far is returned. For
the stream `data: {"choices":[{"delta":{"content":"He"}}]}`,
`data: {"choices":[{"delta":{"content":"llo"}}]}`, `data: [DONE]` the
decoder yields `"He"` then `"Hello"` and ends cleanly returning
`"Hello"`. -/
theorem sentinel_skipped_amended :
    (∀ fullContent : String,
        processLine fullContent "data: [DONE]" = (fullContent, none)) ∧
      handleStreamingResponse actualDeltaStream = ("Hello", ["He", "Hello"]) ∧
      handleStreamingResponse postSentinelStream = ("X", ["X"]) :=
  ⟨fun _ => rfl, by decide, by decide⟩

/-- `data.choices[0]?.message?.content || ''` (api.ts line 74). The plain
accesses `data.choices` and the indexing `[0]` throw a `TypeError` when
their base is `undefined` or `null`; from the first `?.` onwards the chain
is total. A non-string truthy `content` cannot occur in the response shape
modelled here, so `|| ''` maps a missing or empty string to `''`. -/
def extractNonStreaming (data : Json) : Except Unit String :=
  match jsGetThrow (some data) "choices" with
  | Except.error _ => Except.error ()
  | Except.ok choices =>
      match jsIndexThrow choices 0 with
      | Except.error _ => Except.error ()
      | Except.ok first =>
          match jsGetOpt (jsGetOpt first "message") "content" with
          | some (Json.str s) => Except.ok s
          | _ => Except.ok ""

/-- The resolution of the network side of one `sendMessage` call (api.ts
lines 56-81): either the `fetch` promise rejects (network-level failure or
abort) or it resolves to a response with a success flag and a body, the
body given both as decoded stream chunks and as its parsed JSON according
to which path consumes it. -/
inductive FetchResult where
  | networkFailure
  | aborted
  | response (ok : Bool) (chunks : List String) (body : Json)

/-- `sendMessage` (api.ts lines 34-82) after the request body is built:
the outcome surfaced to the caller (an `AbortError` is rethrown as the
distinct `'Request cancelled'` error; any other throw — non-success
status, network failure, extraction `TypeError` — is rethrown as is, all
collapsed here to `Except.error ()`), together with the accumulated values
delivered to the `onStream` callback. -/
def sendMessage (streamingEnabled : Bool) (r : FetchResult) :
    Except Unit String × List String :=
  match r with
  | FetchResult.networkFailure => (Except.error (), [])
  | FetchResult.aborted => (Except.error (), [])
  | FetchResult.response ok chunks body =>
      if !ok then (Except.error (), [])
      else if streamingEnabled then
        match handleStreamingResponse chunks with
        | (fullContent, emits) => (Except.ok fullContent, emits)
      else
        match extractNonStreaming body with
        | Except.ok s => (Except.ok s, [])
        | Except.error _ => (Except.error (), [])

/-- `generateChatTitle` (storage.ts lines 83-86): the trimmed first
message clipped to 50 characters, with an ellipsis marker when clipped. -/
def generateChatTitle (firstMessage : String) : String :=
  let cleaned := String.mk ((jsTrim firstMessage).data.take 50)
  if cleaned.length < (jsTrim firstMessage).length then cleaned ++ "..."
  else cleaned

/-- Constructor for the message records built inline by the manager. -/
def mkMessage (id : String) (role : Role) (content : String)
    (timestamp : Nat) : Message :=
  { id := id, role := role, content := content, timestamp := timestamp }

/-- The fresh conversation built by `sendUserMessage` when called without a
(resolvable) identifier (useChatManager.ts lines 100-108). -/
def freshChat (freshChatId : String) (content : String) (now : Nat) : Chat :=
  { id := freshChatId
    title := generateChatTitle content
    messages := []
    createdAt := now
    updatedAt := now
    pinned := false
    archived := false }

/-- Lines 120-123 of `sendUserMessage` (useChatManager.ts): an empty
conversation still carrying the default title is retitled from the
message being sent. -/
def retitled (chat0 : Chat) (content : String) : Chat :=
  if chat0.messages.length = 0 ∧ chat0.title = "New chat" then
    { chat0 with title := generateChatTitle content }
  else chat0

/-- Lines 125-129 of `sendUserMessage`: the (possibly retitled, lines
120-123, see `retitled`) conversation with the user message appended. -/
def withUserMessage (chat0 : Chat) (content userMsgId : String) (now : Nat) : Chat :=
  { retitled chat0 content with
    messages := (retitled chat0 content).messages ++ [mkMessage userMsgId Role.user content now]
    updatedAt := now }

/-- Lines 148-159 of `sendUserMessage` (useChatManager.ts): on success the
assistant message is appended to the conversation that already carries the
user message. -/
def withAssistantMessage (chat2 : Chat) (asstMsgId response : String)
    (now : Nat) : Chat :=
  { chat2 with
    messages := chat2.messages ++ [mkMessage asstMsgId Role.assistant response now]
    updatedAt := now }

/-- Lines 113-170 of `sendUserMessage` (useChatManager.ts), after the
conversation has been resolved: append the user message (optimistically),
persist, open a cancellation handle and mark the session loading, then —
according to `outcome`, the resolution of the inner `sendMessage`
promise — either commit the assistant message or fall into the logging
`catch`; in both cases the `finally` block resets the session state and
drops the handle, and the returned promise resolves with
`targetChatId`. -/
def sendCore (st : ManagerState) (chat0 : Chat) (newChats0 : List Chat)
    (targetChatId content userMsgId asstMsgId : String) (now : Nat)
    (outcome : Except Unit String) : ManagerState × Except Unit String :=
  let chat2 := withUserMessage chat0 content userMsgId now
  let newChats1 := newChats0.map (fun c => if c.id = chat2.id then chat2 else c)
  let controllers1 := ctrlSet st.controllers targetChatId
  let reg1 := updateChatState st.chatStates targetChatId
    { isLoading := some true, streamingContent := some "" }
  let chatsFinal :=
    match outcome with
    | Except.ok response =>
        let finalChat := withAssistantMessage chat2 asstMsgId response now
        newChats1.map (fun c => if c.id = finalChat.id then finalChat else c)
    | Except.error _ => newChats1
  ({ chats := chatsFinal
     chatStates := updateChatState reg1 targetChatId
       { isLoading := some false, streamingContent := some "" }
     controllers := ctrlDelete controllers1 targetChatId },
    Except.ok targetChatId)

/-- `sendUserMessage` (useChatManager.ts lines 94-171). Pure rendering of
one complete call: `chatId`/`content` are the arguments, `freshChatId`,
`userMsgId`, `asstMsgId` are the values `generateId()` returns at its three
call sites, `now` stands for `Date.now()`, and `outcome` is the resolution
of the inner `sendMessage` promise. Lines 95-111 resolve the target
conversation — a falsy or unresolvable identifier makes a fresh one — and
`sendCore` is the rest of the function body. -/
def sendUserMessage (st : ManagerState) (chatId : Option String)
    (content : String) (freshChatId userMsgId asstMsgId : String) (now : Nat)
    (outcome : Except Unit String) : ManagerState × Except Unit String :=
  match chatId with
  | none =>
      sendCore st (freshChat freshChatId content now)
        (freshChat freshChatId content now :: st.chats) freshChatId content
        userMsgId asstMsgId now outcome
  | some cid =>
      if cid = "" then
        sendCore st (freshChat freshChatId content now)
          (freshChat freshChatId content now :: st.chats) freshChatId content
          userMsgId asstMsgId now outcome
      else
        match st.chats.find? (fun c => c.id = cid) with
        | some c =>
            sendCore st c st.chats cid content userMsgId asstMsgId now outcome
        | none =>
            sendCore st (freshChat freshChatId content now)
              (freshChat freshChatId content now :: st.chats) freshChatId
              content userMsgId asstMsgId now outcome

/-- Observation used to state C2/C3/C10: the message list of the target
conversation immediately before the send — the list of the conversation
`sendUserMessage` resolves, or the empty list when it creates a fresh
one. -/
def preSendMessages (st : ManagerState) (chatId : Option String) : List Message :=
  match chatId with
  | some cid =>
      if cid = "" then []
      else
        match st.chats.find? (fun c => c.id = cid) with
        | some c => c.messages
        | none => []
  | none => []

lemma retitled_id (chat0 : Chat) (content : String) :
    (retitled chat0 content).id = chat0.id := by
  unfold retitled
  by_cases hP : chat0.messages.length = 0 ∧ chat0.title = "New chat"
  · rw [if_pos hP]
  · rw [if_neg hP]

lemma retitled_messages (chat0 : Chat) (content : String) :
    (retitled chat0 content).messages = chat0.messages := by
  unfold retitled
  by_cases hP : chat0.messages.length = 0 ∧ chat0.title = "New chat"
  · rw [if_pos hP]
  · rw [if_neg hP]

lemma withUserMessage_id (chat0 : Chat) (content userMsgId : String) (now : Nat) :
    (withUserMessage chat0 content userMsgId now).id = chat0.id := by
  unfold withUserMessage
  exact retitled_id chat0 content

lemma withUserMessage_messages (chat0 : Chat) (content userMsgId : String)
    (now : Nat) :
    (withUserMessage chat0 content userMsgId now).messages =
      chat0.messages ++ [mkMessage userMsgId Role.user content now] := by
  unfold withUserMessage
  rw [retitled_messages]

lemma find?_map_replace (l : List Chat) (x : Chat) (k : String)
    (hx : x.id = k) :
    (l.map (fun c => if c.id = x.id then x else c)).find? (fun c => c.id = k) =
      (l.find? (fun c => c.id = k)).map (fun _ => x) := by
  induction l with
  | nil => rfl
  | cons hd tl ih =>
      by_cases h : hd.id = k
      · have h2 : hd.id = x.id := h.trans hx.symm
        rw [List.map_cons, if_pos h2, List.find?_cons_of_pos _ (by simpa using hx),
          List.find?_cons_of_pos _ (by simpa using h)]
        rfl
      · have h2 : hd.id ≠ x.id := fun hh => h (hh.trans hx)
        rw [List.map_cons, if_neg h2, List.find?_cons_of_neg _ (by simpa using h),
          List.find?_cons_of_neg _ (by simpa using h)]
        exact ih

lemma getChatState_idle_update (reg : Registry) (tid : String) :
    (getChatState (updateChatState reg tid
        { isLoading := some false, streamingContent := some "" }) tid).isLoading
        = false ∧
      (getChatState (updateChatState reg tid
        { isLoading := some false, streamingContent := some "" }) tid).streamingContent
        = "" := by
  rw [getChatState_updateChatState_self]
  exact ⟨rfl, rfl⟩

lemma sendCore_error_spec (st : ManagerState) (chat0 : Chat)
    (newChats0 : List Chat) (targetChatId content userMsgId asstMsgId : String)
    (now : Nat) (e : Unit) (hid : chat0.id = targetChatId)
    (hfind : newChats0.find? (fun c => c.id = targetChatId) = some chat0) :
    ∃ ch,
      (sendCore st chat0 newChats0 targetChatId content userMsgId asstMsgId now
        (Except.error e)).2 = Except.ok targetChatId ∧
      (sendCore st chat0 newChats0 targetChatId content userMsgId asstMsgId now
        (Except.error e)).1.chats.find? (fun c => c.id = targetChatId) = some ch ∧
      ch.messages = chat0.messages ++ [mkMessage userMsgId Role.user content now] ∧
      (getChatState (sendCore st chat0 newChats0 targetChatId content userMsgId
        asstMsgId now (Except.error e)).1.chatStates targetChatId).isLoading = false ∧
      (getChatState (sendCore st chat0 newChats0 targetChatId content userMsgId
        asstMsgId now (Except.error e)).1.chatStates targetChatId).streamingContent = "" ∧
      hasController (sendCore st chat0 newChats0 targetChatId content userMsgId
        asstMsgId now (Except.error e)).1.controllers targetChatId = false := by
  refine ⟨withUserMessage chat0 content userMsgId now, rfl, ?_, ?_, ?_, ?_, ?_⟩
  · show (newChats0.map (fun c =>
        if c.id = (withUserMessage chat0 content userMsgId now).id then
          withUserMessage chat0 content userMsgId now
        else c)).find? (fun c => c.id = targetChatId) =
      some (withUserMessage chat0 content userMsgId now)
    rw [find?_map_replace newChats0 _ targetChatId
      ((withUserMessage_id chat0 content userMsgId now).trans hid), hfind]
    rfl
  · exact withUserMessage_messages chat0 content userMsgId now
  · exact (getChatState_idle_update _ _).1
  · exact (getChatState_idle_update _ _).2
  · exact hasController_ctrlDelete _ _

lemma sendCore_ok_spec (st : ManagerState) (chat0 : Chat)
    (newChats0 : List Chat) (targetChatId content userMsgId asstMsgId : String)
    (now : Nat) (response : String) (hid : chat0.id = targetChatId)
    (hfind : newChats0.find? (fun c => c.id = targetChatId) = some chat0) :
    ∃ ch,
      (sendCore st chat0 newChats0 targetChatId content userMsgId asstMsgId now
        (Except.ok response)).2 = Except.ok targetChatId ∧
      (sendCore st chat0 newChats0 targetChatId content userMsgId asstMsgId now
        (Except.ok response)).1.chats.find? (fun c => c.id = targetChatId) = some ch ∧
      ch.messages = chat0.messages ++ [mkMessage userMsgId Role.user content now,
        mkMessage asstMsgId Role.assistant response now] ∧
      (getChatState (sendCore st chat0 newChats0 targetChatId content userMsgId
        asstMsgId now (Except.ok response)).1.chatStates targetChatId).isLoading = false ∧
      (getChatState (sendCore st chat0 newChats0 targetChatId content userMsgId
        asstMsgId now (Except.ok response)).1.chatStates targetChatId).streamingContent = "" ∧
      hasController (sendCore st chat0 newChats0 targetChatId content userMsgId
        asstMsgId now (Except.ok response)).1.controllers targetChatId = false := by
  have hid2 : (withUserMessage chat0 content userMsgId now).id = targetChatId :=
    (withUserMessage_id chat0 content userMsgId now).trans hid
  have hid3 : (withAssistantMessage (withUserMessage chat0 content userMsgId now)
      asstMsgId response now).id = targetChatId := hid2
  refine ⟨withAssistantMessage (withUserMessage chat0 content userMsgId now)
      asstMsgId response now, rfl, ?_, ?_, ?_, ?_, ?_⟩
  · show ((newChats0.map (fun c =>
        if c.id = (withUserMessage chat0 content userMsgId now).id then
          withUserMessage chat0 content userMsgId now
        else c)).map (fun c =>
          if c.id = (withAssistantMessage (withUserMessage chat0 content userMsgId now)
              asstMsgId response now).id then
            withAssistantMessage (withUserMessage chat0 content userMsgId now)
              asstMsgId response now
          else c)).find? (fun c => c.id = targetChatId) = _
    rw [find?_map_replace _ _ targetChatId hid3]
    rw [find?_map_replace _ _ targetChatId hid2, hfind]
    rfl
  · show (withAssistantMessage (withUserMessage chat0 content userMsgId now)
        asstMsgId response now).messages = _
    unfold withAssistantMessage
    rw [withUserMessage_messages chat0 content userMsgId now]
    simp
  · exact (getChatState_idle_update _ _).1
  · exact (getChatState_idle_update _ _).2
  · exact hasController_ctrlDelete _ _

lemma sendUserMessage_resolves (st : ManagerState) (chatId : Option String)
    (content freshChatId userMsgId asstMsgId : String) (now : Nat)
    (outcome : Except Unit String) :
    ∃ tid chat0 newChats0,
      chat0.id = tid ∧
      newChats0.find? (fun c => c.id = tid) = some chat0 ∧
      chat0.messages = preSendMessages st chatId ∧
      sendUserMessage st chatId content freshChatId userMsgId asstMsgId now
          outcome =
        sendCore st chat0 newChats0 tid content userMsgId asstMsgId now outcome := by
  cases chatId with
  | none =>
      exact ⟨freshChatId, freshChat freshChatId content now,
        freshChat freshChatId content now :: st.chats, rfl,
        List.find?_cons_of_pos _ (by simp [freshChat]), rfl, rfl⟩
  | some cid =>
      by_cases hcid : cid = ""
      · subst hcid
        exact ⟨freshChatId, freshChat freshChatId content now,
          freshChat freshChatId content now :: st.chats, rfl,
          List.find?_cons_of_pos _ (by simp [freshChat]), rfl, rfl⟩
      · cases hf : st.chats.find? (fun c => c.id = cid) with
        | some c =>
            have hcid2 : c.id = cid := by simpa using List.find?_some hf
            refine ⟨cid, c, st.chats, hcid2, hf, ?_, ?_⟩
            · simp [preSendMessages, hcid, hf]
            · simp only [sendUserMessage]
              rw [if_neg hcid, hf]
        | none =>
            refine ⟨freshChatId, freshChat freshChatId content now,
              freshChat freshChatId content now :: st.chats, rfl,
              List.find?_cons_of_pos _ (by simp [freshChat]), ?_, ?_⟩
            · simp [preSendMessages, hcid, hf, freshChat]
            · simp only [sendUserMessage]
              rw [if_neg hcid, hf]

/-- C2: a send whose generation is cancelled before completion (the abort
rejection of the completion client, rethrown as `'Request cancelled'`)
commits no assistant message — the target conversation's messages after
cancellation are exactly the prior messages plus the appended user
message, so its count is exactly one more than before the send — and the
session's runtime state is reset to idle with empty streaming text and no
cancellation handle. -/
theorem cancelled_send_no_commit (st : ManagerState) (chatId : Option String)
    (content freshChatId userMsgId asstMsgId : String) (now : Nat)
    (streamingEnabled : Bool) :
    ∃ tid ch,
      (sendUserMessage st chatId content freshChatId userMsgId asstMsgId now
        (sendMessage streamingEnabled FetchResult.aborted).1).2 = Except.ok tid ∧
      (sendUserMessage st chatId content freshChatId userMsgId asstMsgId now
        (sendMessage streamingEnabled FetchResult.aborted).1).1.chats.find?
          (fun c => c.id = tid) = some ch ∧
      ch.messages = preSendMessages st chatId ++
        [mkMessage userMsgId Role.user content now] ∧
      ch.messages.length = (preSendMessages st chatId).length + 1 ∧
      (getChatState (sendUserMessage st chatId content freshChatId userMsgId
        asstMsgId now (sendMessage streamingEnabled
          FetchResult.aborted).1).1.chatStates tid).isLoading = false ∧
      (getChatState (sendUserMessage st chatId content freshChatId userMsgId
        asstMsgId now (sendMessage streamingEnabled
          FetchResult.aborted).1).1.chatStates tid).streamingContent = "" ∧
      hasController (sendUserMessage st chatId content freshChatId userMsgId
        asstMsgId now (sendMessage streamingEnabled
          FetchResult.aborted).1).1.controllers tid = false := by
  have haborted : (sendMessage streamingEnabled FetchResult.aborted).1 =
      Except.error () := rfl
  rw [haborted]
  obtain ⟨tid, chat0, newChats0, hid, hfind, hpre, heq⟩ :=
    sendUserMessage_resolves st chatId content freshChatId userMsgId asstMsgId
      now (Except.error ())
  rw [heq]
  obtain ⟨ch, h1, h2, h3, h4, h5, h6⟩ :=
    sendCore_error_spec st chat0 newChats0 tid content userMsgId asstMsgId now
      () hid hfind
  refine ⟨tid, ch, h1, h2, by rw [h3, hpre], ?_, h4, h5, h6⟩
  rw [h3, hpre]
  simp

/-- A conversation and manager state used to exhibit counterexamples. -/
def exampleChat : Chat :=
  { id := "c1", title := "t", messages := [], createdAt := 0, updatedAt := 0,
    pinned := false, archived := false }

/-- A concrete manager state holding only `exampleChat`, with idle registry
and no controllers. -/
def exampleState : ManagerState :=
  { chats := [exampleChat], chatStates := [], controllers := [] }

/-- Counterexample to C3: a non-success completion status and a
network-level failure both reject the inner `sendMessage` call, yet the
failure does not surface to the caller of `sendUserMessage` — the `catch`
block only logs, and the returned promise resolves normally with the
conversation identifier. -/
theorem error_surfacing_counterexample :
    (sendMessage false (FetchResult.response false [] Json.null)).1 =
        Except.error () ∧
      (sendMessage false FetchResult.networkFailure).1 = Except.error () ∧
      (sendUserMessage exampleState (some "c1") "hi" "f1" "u1" "a1" 5
        (sendMessage false (FetchResult.response false [] Json.null)).1).2 =
        Except.ok "c1" ∧
      (sendUserMessage exampleState (some "c1") "hi" "f1" "u1" "a1" 5
        (sendMessage false FetchResult.networkFailure).1).2 = Except.ok "c1" ∧
      (Except.ok "c1" : Except Unit String) ≠ Except.error () := by
  exact ⟨rfl, rfl, rfl, rfl, fun h => Except.noConfusion h⟩

/-- C3 as amended: when the completion endpoint returns a non-success
status or a network-level failure occurs, the rejection of `sendMessage`
is caught inside the manager (logged, never rethrown): `sendUserMessage`
resolves normally with the conversation identifier, while the manager
still clears the loading state, leaves the already-durable messages intact
(the prior messages plus the appended user message), and appends no
synthetic assistant message. -/
theorem failure_swallowed_amended (st : ManagerState) (chatId : Option String)
    (content freshChatId userMsgId asstMsgId : String) (now : Nat) (e : Unit) :
    ∃ tid ch,
      (sendUserMessage st chatId content freshChatId userMsgId asstMsgId now
        (Except.error e)).2 = Except.ok tid ∧
      (∀ msg, (sendUserMessage st chatId content freshChatId userMsgId asstMsgId
        now (Except.error e)).2 ≠ Except.error msg) ∧
      (sendUserMessage st chatId content freshChatId userMsgId asstMsgId now
        (Except.error e)).1.chats.find? (fun c => c.id = tid) = some ch ∧
      ch.messages = preSendMessages st chatId ++
        [mkMessage userMsgId Role.user content now] ∧
      (getChatState (sendUserMessage st chatId content freshChatId userMsgId
        asstMsgId now (Except.error e)).1.chatStates tid).isLoading = false ∧
      hasController (sendUserMessage st chatId content freshChatId userMsgId
        asstMsgId now (Except.error e)).1.controllers tid = false := by
  obtain ⟨tid, chat0, newChats0, hid, hfind, hpre, heq⟩ :=
    sendUserMessage_resolves st chatId content freshChatId userMsgId asstMsgId
      now (Except.error e)
  rw [heq]
  obtain ⟨ch, h1, h2, h3, h4, h5, h6⟩ :=
    sendCore_error_spec st chat0 newChats0 tid content userMsgId asstMsgId now
      e hid hfind
  refine ⟨tid, ch, h1, ?_, h2, by rw [h3, hpre], h4, h6⟩
  intro msg
  rw [h1]
  exact fun h => Except.noConfusion h

/-- The backwards scan of useChatManager.ts lines 186-193: the index of
the most recent message with role `assistant`, `none` when there is no
assistant message (the loop leaves `lastAssistantIndex === -1`). -/
def lastAssistantIndex : List Message → Option Nat
  | [] => none
  | m :: rest =>
      match lastAssistantIndex rest with
      | some j => some (j + 1)
      | none => if m.role = Role.assistant then some 0 else none

/-- Lines 196-201 of `regenerateLastResponse` (useChatManager.ts): the
conversation truncated to `messages.slice(0, i)`. -/
def truncatedChat (chat : Chat) (i : Nat) (now : Nat) : Chat :=
  { chat with messages := chat.messages.take i, updatedAt := now }

/-- Lines 226-230 of `regenerateLastResponse`: the truncated conversation
with the regenerated assistant message appended. -/
def regeneratedChat (chat : Chat) (i : Nat) (asstMsgId response : String)
    (now : Nat) : Chat :=
  { truncatedChat chat i now with
    messages := chat.messages.take i ++ [mkMessage asstMsgId Role.assistant response now]
    updatedAt := now }

/-- Lines 196-239 of `regenerateLastResponse` (useChatManager.ts), once
the most recent assistant message has been located at index `i`: the
conversation is truncated and persisted, the session is marked loading,
and the outcome either appends one fresh assistant message or falls into
the logging `catch`; the `finally` block resets the session and drops the
handle. -/
def regenCore (st : ManagerState) (chat : Chat) (i : Nat)
    (chatId asstMsgId : String) (now : Nat) (outcome : Except Unit String) :
    ManagerState :=
  let updatedChat := truncatedChat chat i now
  let newChats := st.chats.map (fun c => if c.id = updatedChat.id then updatedChat else c)
  let chatsFinal :=
    match outcome with
    | Except.ok response =>
        let finalChat := regeneratedChat chat i asstMsgId response now
        newChats.map (fun c => if c.id = finalChat.id then finalChat else c)
    | Except.error _ => newChats
  { chats := chatsFinal
    chatStates := updateChatState (updateChatState st.chatStates chatId
      { isLoading := some true, streamingContent := some "" }) chatId
      { isLoading := some false, streamingContent := some "" }
    controllers := ctrlDelete (ctrlSet st.controllers chatId) chatId }

/-- `regenerateLastResponse` (useChatManager.ts lines 182-240): silent
no-op when the conversation is missing, has fewer than two messages, or
has no assistant message; otherwise truncate at the most recent assistant
message and re-issue generation. -/
def regenerateLastResponse (st : ManagerState) (chatId asstMsgId : String)
    (now : Nat) (outcome : Except Unit String) : ManagerState :=
  match st.chats.find? (fun c => c.id = chatId) with
  | none => st
  | some chat =>
      if chat.messages.length < 2 then st
      else
        match lastAssistantIndex chat.messages with
        | none => st
        | some i => regenCore st chat i chatId asstMsgId now outcome

/-- Lines 250-254 of `editAndResend` (useChatManager.ts): the edited
message keeps the original identifier and role and carries the new content
and a fresh timestamp. -/
def editedMsg (orig : Message) (newContent : String) (now : Nat) : Message :=
  { orig with content := newContent, timestamp := now }

/-- Lines 249-260 of `editAndResend`: the conversation truncated to
`messages.slice(0, i)` followed by the edited message. -/
def editTruncChat (chat : Chat) (i : Nat) (orig : Message)
    (newContent : String) (now : Nat) : Chat :=
  { chat with messages := chat.messages.take i ++ [editedMsg orig newContent now], updatedAt := now }

/-- Lines 278-289 of `editAndResend`: the edited conversation with the
fresh assistant message appended. -/
def editFinalChat (chat : Chat) (i : Nat) (orig : Message)
    (newContent asstMsgId response : String) (now : Nat) : Chat :=
  { editTruncChat chat i orig newContent now with
    messages := (editTruncChat chat i orig newContent now).messages ++
      [mkMessage asstMsgId Role.assistant response now]
    updatedAt := now }

/-- Lines 249-298 of `editAndResend` (useChatManager.ts), once the target
user message `orig` has been located at index `i`: the truncated-and-edited
conversation is persisted, the session is marked loading, and the outcome
either appends one fresh assistant message or falls into the logging
`catch`; the `finally` block resets the session and drops the handle. -/
def editCore (st : ManagerState) (chat : Chat) (i : Nat) (orig : Message)
    (chatId newContent asstMsgId : String) (now : Nat)
    (outcome : Except Unit String) : ManagerState :=
  let updatedChat := editTruncChat chat i orig newContent now
  let newChats := st.chats.map (fun c => if c.id = updatedChat.id then updatedChat else c)
  let chatsFinal :=
    match outcome with
    | Except.ok response =>
        let finalChat := editFinalChat chat i orig newContent asstMsgId response now
        newChats.map (fun c => if c.id = finalChat.id then finalChat else c)
    | Except.error _ => newChats
  { chats := chatsFinal
    chatStates := updateChatState (updateChatState st.chatStates chatId
      { isLoading := some true, streamingContent := some "" }) chatId
      { isLoading := some false, streamingContent := some "" }
    controllers := ctrlDelete (ctrlSet st.controllers chatId) chatId }

/-- `editAndResend` (useChatManager.ts lines 242-299): rejected before any
mutation when the conversation is missing, the message identifier is not
found (`findIndex === -1`), or the target message's role is not `user`
(the `messages.get? i` guard is unreachable once `findIdx?` succeeds but
mirrors the indexing `chat.messages[messageIndex]`). -/
def editAndResend (st : ManagerState) (chatId msgId newContent asstMsgId : String)
    (now : Nat) (outcome : Except Unit String) : ManagerState :=
  match st.chats.find? (fun c => c.id = chatId) with
  | none => st
  | some chat =>
      match chat.messages.findIdx? (fun m => m.id = msgId) with
      | none => st
      | some i =>
          match chat.messages.get? i with
          | none => st
          | some orig =>
              if orig.role ≠ Role.user then st
              else editCore st chat i orig chatId newContent asstMsgId now outcome

/-- `importChat` (useChatManager.ts lines 301-311): the imported
conversation is given a fresh identifier and fresh timestamps and prepended
to the list; everything else (title, messages, flags) is kept. -/
def importChat (st : ManagerState) (chatData : Chat) (freshId : String)
    (now : Nat) : ManagerState × String :=
  let newChat := { chatData with id := freshId, createdAt := now, updatedAt := now }
  ({ st with chats := newChat :: st.chats }, newChat.id)

/-- `Array.isArray`. -/
def isJsonArr : Json → Bool
  | Json.arr _ => true
  | _ => false

/-- The validation `if (data.messages && Array.isArray(data.messages))` of
`handleImportChat` (Sidebar.tsx line 156). A non-object parse result gives
no `messages` property (a `null` would make the access throw into the
enclosing `catch`, likewise a reject); an empty array is truthy in JS, so
any array passes. -/
def importIsAccepted (data : Json) : Bool :=
  match data with
  | Json.obj fields =>
      match jsonLookup fields "messages" with
      | some v => jsTruthy v && isJsonArr v
      | none => false
  | _ => false

/-- `handleImportChat` (Sidebar.tsx lines 145-164) composed with the
manager's `importChat`: the parsed payload is validated and, if accepted,
handed to `onImportChat` through the unchecked cast `data as Chat`, whose
result is the explicit `dataAsChat` argument here. -/
def handleImportChat (st : ManagerState) (data : Json) (dataAsChat : Chat)
    (freshId : String) (now : Nat) : ManagerState :=
  if importIsAccepted data then (importChat st dataAsChat freshId now).1 else st

lemma find?_replace_eq (l : List Chat) (x : Chat) (k : String)
    (hx : x.id = k) (c0 : Chat)
    (hfind : l.find? (fun c => c.id = k) = some c0) :
    (l.map (fun c => if c.id = x.id then x else c)).find?
      (fun c => c.id = k) = some x := by
  rw [find?_map_replace l x k hx, hfind]
  rfl

lemma find?_double_replace (l : List Chat) (x y : Chat) (k : String)
    (hx : x.id = k) (hy : y.id = k) (c0 : Chat)
    (hfind : l.find? (fun c => c.id = k) = some c0) :
    ((l.map (fun c => if c.id = x.id then x else c)).map
      (fun c => if c.id = y.id then y else c)).find?
      (fun c => c.id = k) = some y := by
  rw [find?_map_replace _ y k hy, find?_map_replace l x k hx, hfind]
  rfl

lemma regenCore_ok_find (st : ManagerState) (chat : Chat) (i : Nat)
    (chatId asstMsgId : String) (now : Nat) (r : String)
    (hid : chat.id = chatId)
    (hfind : st.chats.find? (fun c => c.id = chatId) = some chat) :
    (regenCore st chat i chatId asstMsgId now (Except.ok r)).chats.find?
      (fun c => c.id = chatId) = some (regeneratedChat chat i asstMsgId r now) :=
  find?_double_replace st.chats (truncatedChat chat i now)
    (regeneratedChat chat i asstMsgId r now) chatId hid hid chat hfind

/-- A conversation whose most recent assistant message is not its final
message: `[user, assistant, user]` — reachable, e.g. after a failed send
left a trailing user message. -/
def regenChat : Chat :=
  { id := "c", title := "t",
    messages := [mkMessage "u1" Role.user "hi" 1,
      mkMessage "a1" Role.assistant "yo" 2, mkMessage "u2" Role.user "again" 3],
    createdAt := 0, updatedAt := 3, pinned := false, archived := false }

/-- Manager state holding only `regenChat`. -/
def regenState : ManagerState :=
  { chats := [regenChat], chatStates := [], controllers := [] }

/-- Counterexample to C6: on the conversation `[user u1, assistant a1,
user u2]` — which has three messages and contains an assistant message —
`regenerateLastResponse` does not remove exactly one assistant message: it
truncates at the most recent assistant message, removing both `a1` and the
trailing `u2`, so the successful result is `[u1, fresh assistant]` rather
than the `[u1, u2, fresh assistant]` the claim requires. -/
theorem regenerate_removal_counterexample :
    (∃ m, m ∈ regenChat.messages ∧ m.role = Role.assistant) ∧
      2 ≤ regenChat.messages.length ∧
      ((regenerateLastResponse regenState "c" "a2" 9 (Except.ok "ok")).chats.find?
        (fun c => c.id = "c")).map (fun c => c.messages) =
        some [mkMessage "u1" Role.user "hi" 1,
          mkMessage "a2" Role.assistant "ok" 9] ∧
      some [mkMessage "u1" Role.user "hi" 1, mkMessage "a2" Role.assistant "ok" 9] ≠
        some [mkMessage "u1" Role.user "hi" 1, mkMessage "u2" Role.user "again" 3,
          mkMessage "a2" Role.assistant "ok" 9] := by
  refine ⟨⟨mkMessage "a1" Role.assistant "yo" 2, by decide, rfl⟩, by decide,
    by decide, by decide⟩

/-- C6 as amended: for a conversation with at least two messages that
contains an assistant message, `regenerateLastResponse` truncates the
conversation at its most recent assistant message — removing that message
and every message after it — and, on success, appends exactly one new
assistant message; the messages before the removed one are untouched,
byte-for-byte. For a conversation with no assistant message or fewer than
two messages (or an unknown identifier) it is a silent no-op. -/
theorem regenerate_truncates_amended (st : ManagerState)
    (chatId asstMsgId : String) (now : Nat) (r : String) :
    (∀ chat i, st.chats.find? (fun c => c.id = chatId) = some chat →
      2 ≤ chat.messages.length →
      lastAssistantIndex chat.messages = some i →
      ∃ ch, (regenerateLastResponse st chatId asstMsgId now
          (Except.ok r)).chats.find? (fun c => c.id = chatId) = some ch ∧
        ch.messages = chat.messages.take i ++
          [mkMessage asstMsgId Role.assistant r now] ∧
        chat.messages.take i ++ chat.messages.drop i = chat.messages) ∧
    (∀ chat, st.chats.find? (fun c => c.id = chatId) = some chat →
      (chat.messages.length < 2 ∨ lastAssistantIndex chat.messages = none) →
      regenerateLastResponse st chatId asstMsgId now (Except.ok r) = st) ∧
    (st.chats.find? (fun c => c.id = chatId) = none →
      regenerateLastResponse st chatId asstMsgId now (Except.ok r) = st) := by
  refine ⟨?_, ?_, ?_⟩
  · intro chat i hfind hlen hlast
    have hid : chat.id = chatId := by simpa using List.find?_some hfind
    have heq : regenerateLastResponse st chatId asstMsgId now (Except.ok r) =
        regenCore st chat i chatId asstMsgId now (Except.ok r) := by
      simp only [regenerateLastResponse, hfind]
      rw [if_neg (by omega), hlast]
    rw [heq]
    exact ⟨regeneratedChat chat i asstMsgId r now,
      regenCore_ok_find st chat i chatId asstMsgId now r hid hfind, rfl,
      List.take_append_drop i chat.messages⟩
  · intro chat hfind h
    simp only [regenerateLastResponse, hfind]
    rcases h with h | h
    · rw [if_pos h]
    · by_cases hl : chat.messages.length < 2
      · rw [if_pos hl]
      · rw [if_neg hl, h]
  · intro hnone
    simp only [regenerateLastResponse, hnone]

/-- Witness for C6 as amended, discharged at `regenState`: the
conversation `[u1, a1, u2]` is truncated at index 1 and the fresh
assistant message appended. -/
theorem regenerate_truncates_amended_witness :
    ∃ ch, (regenerateLastResponse regenState "c" "a2" 9
        (Except.ok "ok")).chats.find? (fun c => c.id = "c") = some ch ∧
      ch.messages = regenChat.messages.take 1 ++
        [mkMessage "a2" Role.assistant "ok" 9] ∧
      regenChat.messages.take 1 ++ regenChat.messages.drop 1 = regenChat.messages :=
  (regenerate_truncates_amended regenState "c" "a2" 9 "ok").1 regenChat 1
    (by decide) (by decide) (by decide)

lemma editCore_ok_find (st : ManagerState) (chat : Chat) (i : Nat)
    (orig : Message) (chatId newContent asstMsgId : String) (now : Nat)
    (r : String) (hid : chat.id = chatId)
    (hfind : st.chats.find? (fun c => c.id = chatId) = some chat) :
    (editCore st chat i orig chatId newContent asstMsgId now
      (Except.ok r)).chats.find? (fun c => c.id = chatId) =
      some (editFinalChat chat i orig newContent asstMsgId r now) :=
  find?_double_replace st.chats (editTruncChat chat i orig newContent now)
    (editFinalChat chat i orig newContent asstMsgId r now) chatId hid hid
    chat hfind

lemma editCore_error_find (st : ManagerState) (chat : Chat) (i : Nat)
    (orig : Message) (chatId newContent asstMsgId : String) (now : Nat)
    (e : Unit) (hid : chat.id = chatId)
    (hfind : st.chats.find? (fun c => c.id = chatId) = some chat) :
    (editCore st chat i orig chatId newContent asstMsgId now
      (Except.error e)).chats.find? (fun c => c.id = chatId) =
      some (editTruncChat chat i orig newContent now) :=
  find?_replace_eq st.chats (editTruncChat chat i orig newContent now) chatId
    hid chat hfind

/-- C7: for a conversation in which the message with the given identifier
sits at index `i` and has role `user`, `editAndResend` produces a
conversation whose first `i` messages are unchanged, followed by exactly
one user message carrying the new text (same identifier, role `user`, new
content) and, on success, exactly one new assistant message — regardless
of the conversation's length; when the target message is absent or its
role is not `user` (or the conversation is unknown), the operation is
rejected before any mutation: the whole manager state, store and registry
alike, is returned unchanged. -/
theorem edit_truncation_law (st : ManagerState)
    (chatId msgId newContent asstMsgId : String) (now : Nat) (r : String) :
    (∀ chat i orig, st.chats.find? (fun c => c.id = chatId) = some chat →
      chat.messages.findIdx? (fun m => m.id = msgId) = some i →
      chat.messages.get? i = some orig →
      orig.role = Role.user →
      (∃ ch, (editAndResend st chatId msgId newContent asstMsgId now
          (Except.ok r)).chats.find? (fun c => c.id = chatId) = some ch ∧
        ch.messages = chat.messages.take i ++
          [editedMsg orig newContent now,
            mkMessage asstMsgId Role.assistant r now] ∧
        (editedMsg orig newContent now).role = Role.user ∧
        (editedMsg orig newContent now).content = newContent ∧
        chat.messages.take i ++ chat.messages.drop i = chat.messages) ∧
      (∃ ch, (editAndResend st chatId msgId newContent asstMsgId now
          (Except.error ())).chats.find? (fun c => c.id = chatId) = some ch ∧
        ch.messages = chat.messages.take i ++ [editedMsg orig newContent now])) ∧
    (∀ chat, st.chats.find? (fun c => c.id = chatId) = some chat →
      chat.messages.findIdx? (fun m => m.id = msgId) = none →
      editAndResend st chatId msgId newContent asstMsgId now (Except.ok r) = st) ∧
    (∀ chat i orig, st.chats.find? (fun c => c.id = chatId) = some chat →
      chat.messages.findIdx? (fun m => m.id = msgId) = some i →
      chat.messages.get? i = some orig →
      orig.role ≠ Role.user →
      editAndResend st chatId msgId newContent asstMsgId now (Except.ok r) = st) ∧
    (st.chats.find? (fun c => c.id = chatId) = none →
      editAndResend st chatId msgId newContent asstMsgId now (Except.ok r) = st) := by
  refine ⟨?_, ?_, ?_, ?_⟩
  · intro chat i orig hfind hidx hget hrole
    have hid : chat.id = chatId := by simpa using List.find?_some hfind
    constructor
    · have heq : editAndResend st chatId msgId newContent asstMsgId now
          (Except.ok r) =
          editCore st chat i orig chatId newContent asstMsgId now
            (Except.ok r) := by
        simp only [editAndResend, hfind, hidx, hget]
        rw [if_neg (by simp [hrole])]
      rw [heq]
      refine ⟨editFinalChat chat i orig newContent asstMsgId r now,
        editCore_ok_find st chat i orig chatId newContent asstMsgId now r hid
          hfind, ?_, hrole, rfl, List.take_append_drop i chat.messages⟩
      show (chat.messages.take i ++ [editedMsg orig newContent now]) ++
          [mkMessage asstMsgId Role.assistant r now] = _
      rw [List.append_assoc]
      rfl
    · have heq : editAndResend st chatId msgId newContent asstMsgId now
          (Except.error ()) =
          editCore st chat i orig chatId newContent asstMsgId now
            (Except.error ()) := by
        simp only [editAndResend, hfind, hidx, hget]
        rw [if_neg (by simp [hrole])]
      rw [heq]
      exact ⟨editTruncChat chat i orig newContent now,
        editCore_error_find st chat i orig chatId newContent asstMsgId now ()
          hid hfind, rfl⟩
  · intro chat hfind hidx
    simp only [editAndResend, hfind, hidx]
  · intro chat i orig hfind hidx hget hrole
    simp only [editAndResend, hfind, hidx, hget]
    rw [if_pos hrole]
  · intro hnone
    simp only [editAndResend, hnone]

/-- A conversation with a user message (`m1`) followed by an assistant
reply (`m2`), used to witness C7. -/
def editChat : Chat :=
  { id := "e", title := "t",
    messages := [mkMessage "m1" Role.user "hello" 1,
      mkMessage "m2" Role.assistant "resp" 2],
    createdAt := 0, updatedAt := 2, pinned := false, archived := false }

/-- Manager state holding only `editChat`. -/
def editState : ManagerState :=
  { chats := [editChat], chatStates := [], controllers := [] }

/-- Witness for C7, discharged at `editState`: editing the user message
`m1` (index 0) truncates to the edited message and, on success, appends
one assistant message. -/
theorem edit_truncation_law_witness :
    (∃ ch, (editAndResend editState "e" "m1" "new text" "a9" 7
        (Except.ok "resp2")).chats.find? (fun c => c.id = "e") = some ch ∧
      ch.messages = editChat.messages.take 0 ++
        [editedMsg (mkMessage "m1" Role.user "hello" 1) "new text" 7,
          mkMessage "a9" Role.assistant "resp2" 7] ∧
      (editedMsg (mkMessage "m1" Role.user "hello" 1) "new text" 7).role =
        Role.user ∧
      (editedMsg (mkMessage "m1" Role.user "hello" 1) "new text" 7).content =
        "new text" ∧
      editChat.messages.take 0 ++ editChat.messages.drop 0 = editChat.messages) ∧
    (∃ ch, (editAndResend editState "e" "m1" "new text" "a9" 7
        (Except.error ())).chats.find? (fun c => c.id = "e") = some ch ∧
      ch.messages = editChat.messages.take 0 ++
        [editedMsg (mkMessage "m1" Role.user "hello" 1) "new text" 7]) :=
  (edit_truncation_law editState "e" "m1" "new text" "a9" 7 "resp2").1
    editChat 0 (mkMessage "m1" Role.user "hello" 1) (by decide) (by decide)
    (by decide) (by decide)

/-- A concrete imported-conversation value standing for the unchecked
`data as Chat` cast of a payload whose message list is empty. -/
def emptyImportChat : Chat :=
  { id := "imported-id", title := "imported", messages := [], createdAt := 11,
    updatedAt := 12, pinned := false, archived := false }

/-- Counterexample to C8: the import validation does not require a
non-empty message list — the payload `{"messages": []}` (an empty array is
truthy in JS and `Array.isArray` accepts it) passes validation and a
conversation is created for it. -/
theorem import_nonempty_claim_counterexample :
    importIsAccepted (Json.obj [("messages", Json.arr [])]) = true ∧
      (handleImportChat exampleState (Json.obj [("messages", Json.arr [])])
        emptyImportChat "f9" 7).chats.length = exampleState.chats.length + 1 := by
  exact ⟨rfl, rfl⟩

/-- C8 as amended: import accepts a payload exactly when it carries a
`messages` field holding an array — possibly empty: `{}` (no messages
field) is rejected without creating any conversation, `{messages: []}` is
accepted, and an accepted conversation is prepended with a fresh
identifier and fresh creation/update timestamps — never the imported
identifier — while keeping the imported title and messages. -/
theorem import_validation_amended (st : ManagerState) (data : Json)
    (dataAsChat : Chat) (freshId : String) (now : Nat) :
    importIsAccepted (Json.obj []) = false ∧
      handleImportChat st (Json.obj []) dataAsChat freshId now = st ∧
      importIsAccepted (Json.obj [("messages", Json.arr [])]) = true ∧
      (importIsAccepted data = false →
        handleImportChat st data dataAsChat freshId now = st) ∧
      (importIsAccepted data = true →
        ∃ c, (handleImportChat st data dataAsChat freshId now).chats =
            c :: st.chats ∧
          c.id = freshId ∧ c.createdAt = now ∧ c.updatedAt = now ∧
          c.title = dataAsChat.title ∧ c.messages = dataAsChat.messages ∧
          (freshId ≠ dataAsChat.id → c.id ≠ dataAsChat.id)) := by
  refine ⟨rfl, rfl, rfl, ?_, ?_⟩
  · intro hrej
    simp only [handleImportChat, hrej]
    rfl
  · intro hacc
    simp only [handleImportChat, hacc]
    exact ⟨{ dataAsChat with id := freshId, createdAt := now, updatedAt := now },
      rfl, rfl, rfl, rfl, rfl, rfl, fun hne => hne⟩

/-- Witness for C8 as amended, discharged at the accepted payload
`{"messages": []}` and the rejected payload `{}` over `exampleState`. -/
theorem import_validation_amended_witness :
    handleImportChat exampleState (Json.obj []) emptyImportChat "f9" 7 =
        exampleState ∧
      ∃ c, (handleImportChat exampleState
          (Json.obj [("messages", Json.arr [])]) emptyImportChat "f9" 7).chats =
          c :: exampleState.chats ∧
        c.id = "f9" ∧ c.createdAt = 7 ∧ c.updatedAt = 7 ∧
        c.title = emptyImportChat.title ∧ c.messages = emptyImportChat.messages ∧
        ("f9" ≠ emptyImportChat.id → c.id ≠ emptyImportChat.id) :=
  ⟨(import_validation_amended exampleState (Json.obj []) emptyImportChat
      "f9" 7).2.2.2.1 rfl,
    (import_validation_amended exampleState
      (Json.obj [("messages", Json.arr [])]) emptyImportChat "f9" 7).2.2.2.2 rfl⟩

lemma sendUserMessage_ok_spec (st : ManagerState) (chatId : Option String)
    (content freshChatId userMsgId asstMsgId : String) (now : Nat)
    (response : String) :
    ∃ tid ch,
      (sendUserMessage st chatId content freshChatId userMsgId asstMsgId now
        (Except.ok response)).2 = Except.ok tid ∧
      (sendUserMessage st chatId content freshChatId userMsgId asstMsgId now
        (Except.ok response)).1.chats.find? (fun c => c.id = tid) = some ch ∧
      ch.messages = preSendMessages st chatId ++
        [mkMessage userMsgId Role.user content now,
          mkMessage asstMsgId Role.assistant response now] := by
  obtain ⟨tid, chat0, newChats0, hid, hfind, hpre, heq⟩ :=
    sendUserMessage_resolves st chatId content freshChatId userMsgId asstMsgId
      now (Except.ok response)
  rw [heq]
  obtain ⟨ch, h1, h2, h3, _, _, _⟩ :=
    sendCore_ok_spec st chat0 newChats0 tid content userMsgId asstMsgId now
      response hid hfind
  exact ⟨tid, ch, h1, h2, by rw [h3, hpre]⟩

/-- Counterexample to C10: when streaming is disabled, the endpoint
returns a success status, and the body lacks the `choices` array, text
extraction is not total — `data.choices[0]` indexes into `undefined`,
which throws a `TypeError`, so `sendMessage` rejects instead of returning
the empty string. -/
theorem choices_absent_throws_counterexample :
    extractNonStreaming (Json.obj []) = Except.error () ∧
      (sendMessage false (FetchResult.response true [] (Json.obj []))).1 =
        Except.error () ∧
      (Except.error () : Except Unit String) ≠ Except.ok "" :=
  ⟨rfl, rfl, fun h => Except.noConfusion h⟩

/-- C10 as amended: with streaming disabled and a success status, text
extraction is total over the response shapes from the first optional-chain
step onwards — an empty `choices` array, a first element without
`message`, or a `message` without `content` all yield the empty string,
and the manager then commits a durable assistant message whose content is
the empty string — but when the body lacks the `choices` array itself the
indexing throws, `sendMessage` rejects, and the manager (catching the
failure) commits no assistant message and clears the loading state. -/
theorem nonstreaming_extraction_amended (st : ManagerState)
    (chatId : Option String)
    (content freshChatId userMsgId asstMsgId : String) (now : Nat) :
    extractNonStreaming (Json.obj [("choices", Json.arr [])]) = Except.ok "" ∧
      extractNonStreaming (Json.obj [("choices", Json.arr [Json.obj []])]) =
        Except.ok "" ∧
      extractNonStreaming (Json.obj [("choices",
        Json.arr [Json.obj [("message", Json.obj [])]])]) = Except.ok "" ∧
      (sendMessage false (FetchResult.response true []
        (Json.obj [("choices", Json.arr [])]))).1 = Except.ok "" ∧
      (∃ tid ch,
        (sendUserMessage st chatId content freshChatId userMsgId asstMsgId now
          (Except.ok "")).2 = Except.ok tid ∧
        (sendUserMessage st chatId content freshChatId userMsgId asstMsgId now
          (Except.ok "")).1.chats.find? (fun c => c.id = tid) = some ch ∧
        ch.messages = preSendMessages st chatId ++
          [mkMessage userMsgId Role.user content now,
            mkMessage asstMsgId Role.assistant "" now]) ∧
      (sendMessage false (FetchResult.response true [] (Json.obj []))).1 =
        Except.error () ∧
      (∃ tid ch,
        (sendUserMessage st chatId content freshChatId userMsgId asstMsgId now
          (sendMessage false (FetchResult.response true [] (Json.obj []))).1).2 =
          Except.ok tid ∧
        (sendUserMessage st chatId content freshChatId userMsgId asstMsgId now
          (sendMessage false (FetchResult.response true [] (Json.obj []))).1).1.chats.find?
            (fun c => c.id = tid) = some ch ∧
        ch.messages = preSendMessages st chatId ++
          [mkMessage userMsgId Role.user content now] ∧
        (getChatState (sendUserMessage st chatId content freshChatId userMsgId
          asstMsgId now (sendMessage false (FetchResult.response true []
            (Json.obj []))).1).1.chatStates tid).isLoading = false) := by
  refine ⟨rfl, rfl, rfl, rfl, ?_, rfl, ?_⟩
  · exact sendUserMessage_ok_spec st chatId content freshChatId userMsgId
      asstMsgId now ""
  · have herr : (sendMessage false (FetchResult.response true []
        (Json.obj []))).1 = Except.error () := rfl
    rw [herr]
    obtain ⟨tid, chat0, newChats0, hid, hfind, hpre, heq⟩ :=
      sendUserMessage_resolves st chatId content freshChatId userMsgId
        asstMsgId now (Except.error ())
    rw [heq]
    obtain ⟨ch, h1, h2, h3, h4, _, _⟩ :=
      sendCore_error_spec st chat0 newChats0 tid content userMsgId asstMsgId
        now () hid hfind
    exact ⟨tid, ch, h1, h2, by rw [h3, hpre], h4⟩

end ChatCompanion
